import Mathlib

/-!
Verification of the wallet-ledger and order-store core of the Payment
repository (src/app/services.py, src/app/routes_wallet.py,
src/app/routes_orders.py) against its natural-language specification.

Modelling conventions: the wallets table (one row per customer_id, the
primary key) is a partial map from customer ids to balances; monetary
amounts are exact rationals except where the claim under scrutiny is about
the numeric representation itself, in which case the binary floating-point
representation used by the code is modelled explicitly; fallible routes
return Except values; the database session/commit discipline is modelled by
returning the committed store, the original store standing for a rolled
back or never-committed transaction.
-/

namespace Payment

/-- Error taxonomy surfaced by the API layer in routes_wallet.py and
routes_orders.py: HTTP 400 on an invalid amount, 400 on a debit against a
missing wallet or an insufficient balance, 500 on an unexpected failure. -/
inductive ApiError where
  | invalidAmount
  | walletNotFound
  | insufficientBalance
  | serverError
  deriving DecidableEq, Repr

/-- One wallet row: a balance keyed by the unique customer_id
(app.models.Wallet as read and written by services.py). -/
structure Wallet where
  customer_id : String
  balance : ℚ
  deriving DecidableEq, Repr

/-- The wallets table: at most one row per customer_id (its primary key),
modelled as a partial map from customer ids to balances. -/
abbrev WalletStore : Type := String → Option ℚ

/-- Committing a wallet row (INSERT of a fresh wallet, or UPDATE of
wallet.balance followed by db.commit) keyed by customer_id. -/
def upsert (db : WalletStore) (cid : String) (b : ℚ) : WalletStore :=
  fun c => if c = cid then some b else db c

/-- services.get_wallet: return the wallet row of the customer; when the row
is absent, auto-create it with balance 0 and commit it. -/
def get_wallet (db : WalletStore) (cid : String) : Wallet × WalletStore :=
  match db cid with
  | some b => ({ customer_id := cid, balance := b }, db)
  | none => ({ customer_id := cid, balance := 0 }, upsert db cid 0)

/-- services.credit_wallet: under the row lock, read the current balance
(0 for a freshly provisioned wallet), add the amount, commit. -/
def credit_wallet (db : WalletStore) (cid : String) (amount : ℚ) :
    Wallet × WalletStore :=
  let old_balance := (db cid).getD 0
  let new_balance := old_balance + amount
  ({ customer_id := cid, balance := new_balance }, upsert db cid new_balance)

/-- services.debit_wallet: under the row lock, fail when the wallet row is
absent, fail when the current balance is below the amount, otherwise
subtract and commit. -/
def debit_wallet (db : WalletStore) (cid : String) (amount : ℚ) :
    Except ApiError (Wallet × WalletStore) :=
  match db cid with
  | none => .error .walletNotFound
  | some current_balance =>
    if current_balance < amount then .error .insufficientBalance
    else
      let new_balance := current_balance - amount
      .ok ({ customer_id := cid, balance := new_balance },
           upsert db cid new_balance)

/-- routes_wallet credit endpoint: reject a non-positive amount with a 400
before calling services.credit_wallet. -/
def routes_credit_wallet (db : WalletStore) (cid : String) (amount : ℚ) :
    Except ApiError (Wallet × WalletStore) :=
  if amount ≤ 0 then .error .invalidAmount
  else .ok (credit_wallet db cid amount)

/-- routes_wallet debit endpoint: reject a non-positive amount with a 400
before calling services.debit_wallet. -/
def routes_debit_wallet (db : WalletStore) (cid : String) (amount : ℚ) :
    Except ApiError (Wallet × WalletStore) :=
  if amount ≤ 0 then .error .invalidAmount
  else debit_wallet db cid amount

/-- The wallet operations exposed by the API layer. -/
inductive WalletOp where
  | getWallet (cid : String)
  | credit (cid : String) (amount : ℚ)
  | debit (cid : String) (amount : ℚ)
  deriving DecidableEq, Repr

/-- Effect of one API wallet call on the stored table: a failed call commits
nothing, so the table is unchanged. -/
def applyWalletOp (db : WalletStore) : WalletOp → WalletStore
  | .getWallet cid => (get_wallet db cid).2
  | .credit cid a =>
    match routes_credit_wallet db cid a with
    | .ok r => r.2
    | .error _ => db
  | .debit cid a =>
    match routes_debit_wallet db cid a with
    | .ok r => r.2
    | .error _ => db

/-- Serialized execution of a sequence of API wallet calls (the row lock in
services.py serializes calls touching one customer). -/
def runWalletOps (db : WalletStore) (ops : List WalletOp) : WalletStore :=
  ops.foldl applyWalletOp db

/-- Every stored balance is non-negative. -/
def nonNegStore (db : WalletStore) : Prop :=
  ∀ c b, db c = some b → 0 ≤ b

/-- The stored balance of a customer, 0 when no wallet row exists. -/
def walletBalance (db : WalletStore) (cid : String) : ℚ :=
  (db cid).getD 0

/-- The empty wallets table. -/
def emptyWalletStore : WalletStore := fun _ => none

/-- A demonstration table holding one wallet with balance 5. -/
def demoWalletStore : WalletStore := upsert emptyWalletStore "C1" 5

-- ### Basic store lemmas

theorem upsert_same (db : WalletStore) (cid : String) (b : ℚ) :
    upsert db cid b cid = some b := by
  simp [upsert]

theorem upsert_other (db : WalletStore) (cid : String) (b : ℚ) (c : String)
    (h : c ≠ cid) : upsert db cid b c = db c := by
  simp [upsert, h]

theorem nonNegStore_upsert {db : WalletStore} {b : ℚ} (cid : String)
    (h : nonNegStore db) (hb : 0 ≤ b) : nonNegStore (upsert db cid b) := by
  intro c x hc
  by_cases hcc : c = cid
  · subst hcc
    rw [upsert_same] at hc
    cases hc
    exact hb
  · rw [upsert_other _ _ _ _ hcc] at hc
    exact h c x hc

theorem walletBalance_nonneg {db : WalletStore} (h : nonNegStore db)
    (c : String) : 0 ≤ walletBalance db c := by
  unfold walletBalance
  cases hc : db c with
  | none => simp
  | some b => simpa using h c b hc

theorem nonNegStore_applyWalletOp {db : WalletStore} (op : WalletOp)
    (h : nonNegStore db) : nonNegStore (applyWalletOp db op) := by
  cases op with
  | getWallet cid =>
    cases hdb : db cid with
    | some b => simpa [applyWalletOp, get_wallet, hdb] using h
    | none =>
      simpa [applyWalletOp, get_wallet, hdb] using
        nonNegStore_upsert cid h le_rfl
  | credit cid a =>
    by_cases ha : a ≤ 0
    · simpa [applyWalletOp, routes_credit_wallet, ha] using h
    · have h0 : (0:ℚ) ≤ (db cid).getD 0 := walletBalance_nonneg h cid
      have ha' : 0 < a := lt_of_not_ge ha
      simp only [applyWalletOp, routes_credit_wallet, ha, if_false,
        credit_wallet]
      exact nonNegStore_upsert cid h (by linarith)
  | debit cid a =>
    by_cases ha : a ≤ 0
    · simpa [applyWalletOp, routes_debit_wallet, ha] using h
    · cases hdb : db cid with
      | none =>
        simpa [applyWalletOp, routes_debit_wallet, debit_wallet, ha, hdb]
          using h
      | some b =>
        by_cases hb : b < a
        · simpa [applyWalletOp, routes_debit_wallet, debit_wallet, ha, hdb,
            hb] using h
        · have hab : a ≤ b := le_of_not_lt hb
          simp only [applyWalletOp, routes_debit_wallet, debit_wallet, ha,
            if_false, hdb, hb]
          exact nonNegStore_upsert cid h (by linarith)

/-- C1: in every state reachable by GetWallet/CreditWallet/DebitWallet from a
state with all balances non-negative, every wallet balance is still
non-negative: GetWallet provisions missing wallets with balance 0, the
credit route only applies positive amounts, and the debit route refuses any
amount above the current balance. -/
theorem wallet_balance_nonneg_invariant (db : WalletStore)
    (ops : List WalletOp) (h : nonNegStore db) :
    nonNegStore (runWalletOps db ops) := by
  induction ops generalizing db with
  | nil => exact h
  | cons op rest ih =>
    exact ih (applyWalletOp db op) (nonNegStore_applyWalletOp op h)

/-- C1 witness: running a concrete mix of provisioning, credits, rejected
credits, debits and over-debits from the empty table leaves every stored
balance non-negative. -/
theorem wallet_balance_nonneg_invariant_witness :
    nonNegStore (runWalletOps emptyWalletStore
      [.getWallet "C2", .credit "C1" 1000, .credit "C1" (-3),
       .debit "C1" 999, .debit "C1" 500, .debit "C3" 7]) :=
  wallet_balance_nonneg_invariant emptyWalletStore _
    (fun _ _ hc => nomatch hc)

/-- C2: the credit route fails with InvalidAmount exactly when the amount is
non-positive; the debit route fails with InvalidAmount exactly when the
amount is non-positive, with WalletNotFound when no wallet row exists, and
with InsufficientBalance when the balance is below the amount; every failed
debit leaves the table unchanged, and a successful debit subtracts the
amount and commits it. -/
theorem wallet_error_taxonomy (db : WalletStore) (cid : String) (a : ℚ) :
    (routes_credit_wallet db cid a = .error .invalidAmount ↔ a ≤ 0)
    ∧ (routes_debit_wallet db cid a = .error .invalidAmount ↔ a ≤ 0)
    ∧ (0 < a → db cid = none →
        routes_debit_wallet db cid a = .error .walletNotFound)
    ∧ (∀ b, 0 < a → db cid = some b → b < a →
        routes_debit_wallet db cid a = .error .insufficientBalance)
    ∧ (∀ e, routes_debit_wallet db cid a = .error e →
        applyWalletOp db (.debit cid a) = db)
    ∧ (∀ e, routes_credit_wallet db cid a = .error e →
        applyWalletOp db (.credit cid a) = db)
    ∧ (∀ b, 0 < a → db cid = some b → a ≤ b →
        routes_debit_wallet db cid a =
          .ok ({ customer_id := cid, balance := b - a },
               upsert db cid (b - a))) := by
  refine ⟨?_, ?_, ?_, ?_, ?_, ?_, ?_⟩
  · unfold routes_credit_wallet
    by_cases ha : a ≤ 0 <;> simp [ha]
  · unfold routes_debit_wallet debit_wallet
    by_cases ha : a ≤ 0
    · simp [ha]
    · simp only [ha, if_false]
      cases hdb : db cid with
      | none => simp [ha]
      | some b =>
        by_cases hb : b < a <;> simp [hb, ha]
  · intro ha hdb
    unfold routes_debit_wallet debit_wallet
    rw [hdb]
    simp [not_le.mpr ha]
  · intro b ha hdb hb
    unfold routes_debit_wallet debit_wallet
    rw [hdb]
    simp [not_le.mpr ha, hb]
  · intro e he
    simp only [applyWalletOp]
    rw [he]
  · intro e he
    simp only [applyWalletOp]
    rw [he]
  · intro b ha hdb hab
    unfold routes_debit_wallet debit_wallet
    rw [hdb]
    simp [not_le.mpr ha, not_lt.mpr hab]

/-- C2 witness: on a table holding one wallet (customer C1, balance 5), a
zero-amount credit and a negative-amount debit are rejected as invalid, a
debit against the unknown customer C2 reports a missing wallet, a debit of
10 against balance 5 reports an insufficient balance and changes nothing,
and a debit of 2 commits balance 3. -/
theorem wallet_error_taxonomy_witness :
    routes_credit_wallet demoWalletStore "C1" 0 = .error .invalidAmount
    ∧ routes_debit_wallet demoWalletStore "C1" (-1) = .error .invalidAmount
    ∧ routes_debit_wallet demoWalletStore "C2" 1 = .error .walletNotFound
    ∧ routes_debit_wallet demoWalletStore "C1" 10 =
        .error .insufficientBalance
    ∧ applyWalletOp demoWalletStore (.debit "C1" 10) = demoWalletStore
    ∧ routes_debit_wallet demoWalletStore "C1" 2 =
        .ok ({ customer_id := "C1", balance := 3 },
             upsert demoWalletStore "C1" 3) := by
  have h5 : demoWalletStore "C1" = some 5 := by decide
  have h2 : demoWalletStore "C2" = none := by decide
  refine ⟨(wallet_error_taxonomy demoWalletStore "C1" 0).1.mpr le_rfl,
          (wallet_error_taxonomy demoWalletStore "C1" (-1)).2.1.mpr
            (by norm_num),
          (wallet_error_taxonomy demoWalletStore "C2" 1).2.2.1
            (by norm_num) h2,
          (wallet_error_taxonomy demoWalletStore "C1" 10).2.2.2.1 5
            (by norm_num) h5 (by norm_num),
          (wallet_error_taxonomy demoWalletStore "C1" 10).2.2.2.2.1
            .insufficientBalance
            ((wallet_error_taxonomy demoWalletStore "C1" 10).2.2.2.1 5
              (by norm_num) h5 (by norm_num)),
          ?_⟩
  have := (wallet_error_taxonomy demoWalletStore "C1" 2).2.2.2.2.2.2 5
    (by norm_num) h5 (by norm_num)
  rw [this]
  norm_num

/-- C4: for every positive amount the credit route succeeds, returning and
committing a wallet whose balance is the previous balance (0 for a customer
without a wallet, which is auto-provisioned) plus the amount; and on a fresh
customer, credit of 1000 followed by debit of 1 leaves balance 999. -/
theorem credit_adds_amount (db : WalletStore) (cid : String) (a : ℚ)
    (ha : 0 < a) :
    routes_credit_wallet db cid a =
      .ok ({ customer_id := cid, balance := walletBalance db cid + a },
           upsert db cid (walletBalance db cid + a))
    ∧ walletBalance (runWalletOps emptyWalletStore
        [.credit "C1" 1000, .debit "C1" 1]) "C1" = 999 := by
  constructor
  · unfold routes_credit_wallet credit_wallet walletBalance
    simp [not_le.mpr ha]
  · norm_num [runWalletOps, List.foldl_cons, List.foldl_nil, applyWalletOp,
      routes_credit_wallet, routes_debit_wallet, credit_wallet,
      debit_wallet, walletBalance, upsert, emptyWalletStore]

/-- C4 witness: crediting 42 to the fresh customer C7 on the empty table
succeeds with balance 0 + 42, and the concrete credit-1000-then-debit-1
scenario leaves balance 999. -/
theorem credit_adds_amount_witness :
    routes_credit_wallet emptyWalletStore "C7" 42 =
      .ok ({ customer_id := "C7",
             balance := walletBalance emptyWalletStore "C7" + 42 },
           upsert emptyWalletStore "C7"
             (walletBalance emptyWalletStore "C7" + 42))
    ∧ walletBalance (runWalletOps emptyWalletStore
        [.credit "C1" 1000, .debit "C1" 1]) "C1" = 999 :=
  credit_adds_amount emptyWalletStore "C7" 42 (by norm_num)

-- ### Serialized accounting of credit and debit sequences

/-- Amount a credit call contributes to the balance of cid: its amount when
it targets cid and passes the positivity check, else 0. -/
def creditDelta (op : WalletOp) (cid : String) : ℚ :=
  match op with
  | .credit c a => if c = cid ∧ 0 < a then a else 0
  | _ => 0

/-- Amount a debit call removes from the balance of cid in state db: its
amount when it targets cid, passes the positivity check, and the stored
balance covers it, else 0. -/
def debitDelta (db : WalletStore) (op : WalletOp) (cid : String) : ℚ :=
  match op with
  | .debit c a =>
    match db c with
    | some b => if c = cid ∧ 0 < a ∧ a ≤ b then a else 0
    | none => 0
  | _ => 0

/-- Sum of the amounts of the credit calls to cid that succeed when the
sequence runs serially from db. -/
def successfulCredits (db : WalletStore) (cid : String) :
    List WalletOp → ℚ
  | [] => 0
  | op :: rest =>
    creditDelta op cid + successfulCredits (applyWalletOp db op) cid rest

/-- Sum of the amounts of the debit calls to cid that succeed when the
sequence runs serially from db. -/
def successfulDebits (db : WalletStore) (cid : String) :
    List WalletOp → ℚ
  | [] => 0
  | op :: rest =>
    debitDelta db op cid + successfulDebits (applyWalletOp db op) cid rest

theorem walletBalance_upsert_same (db : WalletStore) (cid : String)
    (b : ℚ) : walletBalance (upsert db cid b) cid = b := by
  simp [walletBalance, upsert]

theorem walletBalance_upsert_other (db : WalletStore) (cid : String)
    (b : ℚ) (c : String) (h : c ≠ cid) :
    walletBalance (upsert db cid b) c = walletBalance db c := by
  simp [walletBalance, upsert, h]

theorem walletBalance_applyWalletOp (db : WalletStore) (op : WalletOp)
    (cid : String) :
    walletBalance (applyWalletOp db op) cid =
      walletBalance db cid + creditDelta op cid - debitDelta db op cid := by
  cases op with
  | getWallet c =>
    simp only [creditDelta, debitDelta, add_zero, sub_zero]
    cases hdb : db c with
    | some b => simp [applyWalletOp, get_wallet, hdb]
    | none =>
      by_cases hcc : cid = c
      · subst hcc
        simp [applyWalletOp, get_wallet, hdb, walletBalance, upsert]
      · simp [applyWalletOp, get_wallet, hdb,
          walletBalance_upsert_other _ _ _ _ hcc]
  | credit c a =>
    simp only [creditDelta, debitDelta, sub_zero]
    by_cases ha : a ≤ 0
    · have hno : ¬(c = cid ∧ 0 < a) := by
        rintro ⟨-, h2⟩
        exact absurd h2 (not_lt.mpr ha)
      simp [applyWalletOp, routes_credit_wallet, ha, hno]
    · have ha' : 0 < a := lt_of_not_ge ha
      by_cases hcc : c = cid
      · subst hcc
        simp only [applyWalletOp, routes_credit_wallet, ha, if_false,
          credit_wallet]
        rw [walletBalance_upsert_same]
        simp [walletBalance, ha']
      · simp only [applyWalletOp, routes_credit_wallet, ha, if_false,
          credit_wallet]
        have hcc' : cid ≠ c := fun h => hcc h.symm
        rw [walletBalance_upsert_other _ _ _ _ hcc']
        simp [hcc, ha']
  | debit c a =>
    simp only [creditDelta, debitDelta, zero_sub]
    by_cases ha : a ≤ 0
    · have hno : ∀ b : ℚ, ¬(c = cid ∧ 0 < a ∧ a ≤ b) := by
        rintro b ⟨-, h2, -⟩
        exact absurd h2 (not_lt.mpr ha)
      cases hdb : db c with
      | none => simp [applyWalletOp, routes_debit_wallet, ha]
      | some b => simp [applyWalletOp, routes_debit_wallet, ha, hno b]
    · have ha' : 0 < a := lt_of_not_ge ha
      cases hdb : db c with
      | none =>
        simp [applyWalletOp, routes_debit_wallet, debit_wallet, ha, hdb]
      | some b =>
        by_cases hb : b < a
        · have hno : ¬(c = cid ∧ 0 < a ∧ a ≤ b) := by
            rintro ⟨-, -, h3⟩
            exact absurd h3 (not_le.mpr hb)
          simp [applyWalletOp, routes_debit_wallet, debit_wallet, ha, hdb,
            hb, hno]
        · have hab : a ≤ b := le_of_not_lt hb
          by_cases hcc : c = cid
          · subst hcc
            simp only [applyWalletOp, routes_debit_wallet, debit_wallet,
              ha, if_false, hdb, hb]
            rw [walletBalance_upsert_same]
            simp [walletBalance, hdb, ha', hab]
          · simp only [applyWalletOp, routes_debit_wallet, debit_wallet,
              ha, if_false, hdb, hb]
            have hcc' : cid ≠ c := fun h => hcc h.symm
            rw [walletBalance_upsert_other _ _ _ _ hcc']
            simp [hcc]

/-- Final balance of a serially executed sequence: initial balance plus the
successful credits minus the successful debits. -/
theorem runWalletOps_balance (db : WalletStore) (ops : List WalletOp)
    (cid : String) :
    walletBalance (runWalletOps db ops) cid =
      walletBalance db cid + successfulCredits db cid ops
        - successfulDebits db cid ops := by
  induction ops generalizing db with
  | nil => simp [runWalletOps, successfulCredits, successfulDebits]
  | cons op rest ih =>
    have h2 := ih (applyWalletOp db op)
    simp only [runWalletOps, List.foldl_cons] at h2 ⊢
    rw [h2, walletBalance_applyWalletOp db op cid]
    simp only [successfulCredits, successfulDebits]
    ring

-- ### Order store

/-- Order status values stored or returned by the system. -/
inductive OrderStatus where
  | created
  | settled
  | pending
  deriving DecidableEq, Repr

/-- One order row (app.models.Order as written by
services.create_order_immediate). The uuid4 id is modelled by a counter:
the store issues each id exactly once, which is the property of uuid4 the
code relies on. -/
structure OrderRow where
  id : ℕ
  customer_id : String
  amount : ℚ
  currency : String
  idempotency_key : Option String
  status : OrderStatus
  deriving DecidableEq, Repr

/-- The orders table together with the id generator; every issued id is
below nextId, so nextId is always fresh. -/
structure OrderStore where
  orders : List OrderRow
  nextId : ℕ
  deriving DecidableEq, Repr

/-- Payload of a create-order request (app.schemas.OrderCreate as consumed
by services.create_order_immediate). -/
structure OrderCreate where
  customer_id : String
  amount : ℚ
  currency : String
  idempotency_key : Option String
  deriving DecidableEq, Repr

/-- The configuration flags consumed by the order path
(app.config.Settings). -/
structure AppSettings where
  enable_strict_idempotency_check : Bool
  transaction_settlement_window : ℚ
  enable_graceful_degradation : Bool
  deriving DecidableEq, Repr

/-- Python truthiness of the optional idempotency key, as tested by
"settings.enable_strict_idempotency_check and order_data.idempotency_key"
in services.py: None and the empty string are falsy. -/
def keyTruthy : Option String → Bool
  | none => false
  | some k => k != ""

/-- services.create_order_immediate: when strict idempotency checking is on
and a truthy key is supplied, return the first stored order with that key
if one exists; otherwise insert a new row with a fresh id and status
created and commit it. -/
def create_order_immediate (s : AppSettings) (db : OrderStore)
    (od : OrderCreate) : OrderRow × OrderStore :=
  match (if s.enable_strict_idempotency_check
            && keyTruthy od.idempotency_key then
           db.orders.find? (fun o => o.idempotency_key == od.idempotency_key)
         else none) with
  | some existing => (existing, db)
  | none =>
    let o : OrderRow :=
      { id := db.nextId, customer_id := od.customer_id,
        amount := od.amount, currency := od.currency,
        idempotency_key := od.idempotency_key, status := .created }
    (o, { orders := db.orders ++ [o], nextId := db.nextId + 1 })

/-- Response body of the create-order endpoint (app.schemas.OrderResponse). -/
structure OrderResponse where
  order_id : ℕ
  status : OrderStatus
  deriving DecidableEq, Repr

/-- routes_orders create endpoint after the authorization check: validate
0 < amount ≤ 1000000, then create. An unexpected failure during creation
(the fails flag) commits nothing; it is answered with a pending response
carrying a freshly generated id when graceful degradation is on, and with
a 500 otherwise. -/
def routes_create_order (s : AppSettings) (fails : Bool) (db : OrderStore)
    (od : OrderCreate) : Except ApiError (OrderResponse × OrderStore) :=
  if od.amount ≤ 0 ∨ 1000000 < od.amount then .error .invalidAmount
  else if fails then
    if s.enable_graceful_degradation then
      .ok ({ order_id := db.nextId, status := .pending },
           { orders := db.orders, nextId := db.nextId + 1 })
    else .error .serverError
  else
    let r := create_order_immediate s db od
    .ok ({ order_id := r.1.id, status := r.1.status }, r.2)

/-- Committed orders table after one create call: a failed call commits
nothing, so the table is unchanged. -/
def applyCreateOrder (s : AppSettings) (fails : Bool) (db : OrderStore)
    (od : OrderCreate) : OrderStore :=
  match routes_create_order s fails db od with
  | .ok r => r.2
  | .error _ => db

/-- services.get_orders_by_customer: read-only listing of the stored orders
of one customer. -/
def get_orders_by_customer (db : OrderStore) (cid : String) :
    List OrderRow :=
  db.orders.filter (fun o => o.customer_id == cid)

/-- Number of stored order rows carrying idempotency key k. -/
def countKey (db : OrderStore) (k : String) : ℕ :=
  (db.orders.filter (fun o => o.idempotency_key == some k)).length

/-- The empty orders table. -/
def emptyOrderStore : OrderStore := { orders := [], nextId := 0 }

/-- Settings with strict idempotency checking on and graceful degradation
off. -/
def strictSettings : AppSettings :=
  { enable_strict_idempotency_check := true,
    transaction_settlement_window := 0,
    enable_graceful_degradation := false }

/-- Settings with graceful degradation on. -/
def degradedSettings : AppSettings :=
  { enable_strict_idempotency_check := false,
    transaction_settlement_window := 0,
    enable_graceful_degradation := true }

/-- A demonstration create-order payload with idempotency key k1. -/
def demoOrderCreate : OrderCreate :=
  { customer_id := "C1", amount := 100, currency := "INR",
    idempotency_key := some "k1" }

-- ### Order store lemmas

theorem find?_append_of_forall_false {α : Type} (p : α → Bool)
    (l1 l2 : List α) (h : ∀ x ∈ l1, p x = false) :
    (l1 ++ l2).find? p = l2.find? p := by
  induction l1 with
  | nil => rfl
  | cons x t ih =>
    have hx := h x (List.mem_cons_self x t)
    simp only [List.cons_append, List.find?, hx]
    exact ih (fun y hy => h y (List.mem_cons_of_mem x hy))

/-- The new row built by a fresh (non-deduplicated) insertion. -/
def freshRow (db : OrderStore) (od : OrderCreate) : OrderRow :=
  { id := db.nextId, customer_id := od.customer_id, amount := od.amount,
    currency := od.currency, idempotency_key := od.idempotency_key,
    status := .created }

theorem create_order_immediate_fresh (s : AppSettings) (db : OrderStore)
    (od : OrderCreate)
    (h : ∀ o ∈ db.orders, o.idempotency_key ≠ od.idempotency_key) :
    create_order_immediate s db od =
      (freshRow db od,
       { orders := db.orders ++ [freshRow db od],
         nextId := db.nextId + 1 }) := by
  have hf : db.orders.find?
      (fun o => o.idempotency_key == od.idempotency_key) = none := by
    rw [List.find?_eq_none]
    intro x hx
    simpa using h x hx
  cases hcond : (s.enable_strict_idempotency_check
      && keyTruthy od.idempotency_key) with
  | false => simp [create_order_immediate, hcond, freshRow]
  | true => simp [create_order_immediate, hcond, hf, freshRow]

theorem create_order_immediate_hit (s : AppSettings) (db : OrderStore)
    (od : OrderCreate) (o : OrderRow)
    (hs : s.enable_strict_idempotency_check = true)
    (ht : keyTruthy od.idempotency_key = true)
    (hf : db.orders.find?
      (fun x => x.idempotency_key == od.idempotency_key) = some o) :
    create_order_immediate s db od = (o, db) := by
  simp [create_order_immediate, hs, ht, hf]

theorem keyTruthy_some {k : String} (hk0 : k ≠ "") :
    keyTruthy (some k) = true := by
  simp [keyTruthy, hk0]

/-- Resubmitting any payload with the key just inserted returns the stored
row and commits nothing new. -/
theorem create_resubmit_hit (s : AppSettings) (db : OrderStore)
    (od od' : OrderCreate) (k : String)
    (hs : s.enable_strict_idempotency_check = true)
    (hk : od.idempotency_key = some k)
    (hk' : od'.idempotency_key = some k) (hk0 : k ≠ "")
    (hfresh : ∀ o ∈ db.orders, o.idempotency_key ≠ some k) :
    create_order_immediate s (create_order_immediate s db od).2 od' =
      ((create_order_immediate s db od).1,
       (create_order_immediate s db od).2) := by
  have hfresh' : ∀ o ∈ db.orders, o.idempotency_key ≠ od.idempotency_key :=
    fun o ho => hk ▸ hfresh o ho
  rw [create_order_immediate_fresh s db od hfresh']
  refine create_order_immediate_hit s _ od' (freshRow db od) hs
    (hk' ▸ keyTruthy_some hk0) ?_
  have hall : ∀ x ∈ db.orders,
      (x.idempotency_key == od'.idempotency_key) = false := by
    intro x hx
    have := hfresh x hx
    rw [hk']
    simpa using this
  rw [find?_append_of_forall_false _ _ _ hall]
  simp [freshRow, hk, hk']

/-- A fresh insertion of a truthy key leaves exactly one row with that
key. -/
theorem countKey_create_fresh (s : AppSettings) (db : OrderStore)
    (od : OrderCreate) (k : String) (hk : od.idempotency_key = some k)
    (hfresh : ∀ o ∈ db.orders, o.idempotency_key ≠ some k) :
    countKey (create_order_immediate s db od).2 k = 1 := by
  have hfresh' : ∀ o ∈ db.orders, o.idempotency_key ≠ od.idempotency_key :=
    fun o ho => hk ▸ hfresh o ho
  rw [create_order_immediate_fresh s db od hfresh']
  have hall : ∀ x ∈ db.orders,
      (x.idempotency_key == some k) = false := by
    intro x hx
    simpa using hfresh x hx
  unfold countKey
  simp only [List.filter_append]
  rw [List.filter_eq_nil_iff.mpr (by intro x hx; simp [hall x hx])]
  simp [freshRow, hk]

/-- C3: with strict idempotency checking enabled and a (non-empty)
idempotency key supplied, submitting the same order twice returns from the
second call exactly the row created by the first call, commits no new row,
and leaves exactly one stored row with that key after each call. -/
theorem order_idempotent_resubmission (s : AppSettings) (db : OrderStore)
    (od : OrderCreate) (k : String)
    (hs : s.enable_strict_idempotency_check = true)
    (hk : od.idempotency_key = some k) (hk0 : k ≠ "")
    (hfresh : ∀ o ∈ db.orders, o.idempotency_key ≠ some k) :
    create_order_immediate s (create_order_immediate s db od).2 od =
      ((create_order_immediate s db od).1,
       (create_order_immediate s db od).2)
    ∧ countKey (create_order_immediate s db od).2 k = 1
    ∧ countKey
        (create_order_immediate s (create_order_immediate s db od).2 od).2
        k = 1 := by
  have h1 := create_resubmit_hit s db od od k hs hk hk hk0 hfresh
  have h2 := countKey_create_fresh s db od k hk hfresh
  refine ⟨h1, h2, ?_⟩
  rw [h1]
  exact h2

/-- C3 witness: submitting the payload (customer C1, amount 100, key k1)
twice into the empty store returns the same row from both calls, and one
row with key k1 exists after each call. -/
theorem order_idempotent_resubmission_witness :
    create_order_immediate strictSettings
        (create_order_immediate strictSettings emptyOrderStore
          demoOrderCreate).2 demoOrderCreate =
      ((create_order_immediate strictSettings emptyOrderStore
          demoOrderCreate).1,
       (create_order_immediate strictSettings emptyOrderStore
          demoOrderCreate).2)
    ∧ countKey (create_order_immediate strictSettings emptyOrderStore
        demoOrderCreate).2 "k1" = 1
    ∧ countKey (create_order_immediate strictSettings
        (create_order_immediate strictSettings emptyOrderStore
          demoOrderCreate).2 demoOrderCreate).2 "k1" = 1 :=
  order_idempotent_resubmission strictSettings emptyOrderStore
    demoOrderCreate "k1" rfl rfl (by decide)
    (fun o ho => by simp [emptyOrderStore] at ho)

/-- C10: with strict checking enabled, a resubmission whose key matches a
stored order returns that stored order with its original customer, amount,
currency and status, even when the resubmitted payload carries a different
amount or currency: the new payload is ignored and nothing is compared
against the original submission. -/
theorem resubmission_ignores_payload (s : AppSettings) (db : OrderStore)
    (od od' : OrderCreate) (k : String)
    (hs : s.enable_strict_idempotency_check = true)
    (hk : od.idempotency_key = some k)
    (hk' : od'.idempotency_key = some k) (hk0 : k ≠ "")
    (hfresh : ∀ o ∈ db.orders, o.idempotency_key ≠ some k) :
    create_order_immediate s (create_order_immediate s db od).2 od' =
      ((create_order_immediate s db od).1,
       (create_order_immediate s db od).2)
    ∧ (create_order_immediate s db od).1.customer_id = od.customer_id
    ∧ (create_order_immediate s db od).1.amount = od.amount
    ∧ (create_order_immediate s db od).1.currency = od.currency
    ∧ (create_order_immediate s db od).1.status = .created := by
  have hfresh' : ∀ o ∈ db.orders, o.idempotency_key ≠ od.idempotency_key :=
    fun o ho => hk ▸ hfresh o ho
  refine ⟨create_resubmit_hit s db od od' k hs hk hk' hk0 hfresh, ?_, ?_,
    ?_, ?_⟩ <;>
  · rw [create_order_immediate_fresh s db od hfresh']
    simp [freshRow]

/-- C10 witness: after storing (amount 100, currency INR, key k1),
resubmitting (amount 999, currency USD, key k1) returns the stored row,
whose amount is still 100 and currency INR. -/
theorem resubmission_ignores_payload_witness :
    create_order_immediate strictSettings
        (create_order_immediate strictSettings emptyOrderStore
          demoOrderCreate).2
        { customer_id := "C1", amount := 999, currency := "USD",
          idempotency_key := some "k1" } =
      ((create_order_immediate strictSettings emptyOrderStore
          demoOrderCreate).1,
       (create_order_immediate strictSettings emptyOrderStore
          demoOrderCreate).2)
    ∧ (create_order_immediate strictSettings emptyOrderStore
        demoOrderCreate).1.customer_id = demoOrderCreate.customer_id
    ∧ (create_order_immediate strictSettings emptyOrderStore
        demoOrderCreate).1.amount = demoOrderCreate.amount
    ∧ (create_order_immediate strictSettings emptyOrderStore
        demoOrderCreate).1.currency = demoOrderCreate.currency
    ∧ (create_order_immediate strictSettings emptyOrderStore
        demoOrderCreate).1.status = .created :=
  resubmission_ignores_payload strictSettings emptyOrderStore
    demoOrderCreate
    { customer_id := "C1", amount := 999, currency := "USD",
      idempotency_key := some "k1" }
    "k1" rfl rfl rfl (by decide)
    (fun o ho => by simp [emptyOrderStore] at ho)

/-- C6: the create-order endpoint rejects an amount with InvalidAmount
exactly when it is non-positive or above 1000000; a rejected submission
commits nothing, so it never appears in the order listing; every amount in
(0, 1000000], the bound included, is accepted. -/
theorem order_amount_validation (s : AppSettings) (db : OrderStore)
    (od : OrderCreate) :
    (routes_create_order s false db od = .error .invalidAmount ↔
      (od.amount ≤ 0 ∨ 1000000 < od.amount))
    ∧ ((od.amount ≤ 0 ∨ 1000000 < od.amount) → ∀ fails,
        applyCreateOrder s fails db od = db
        ∧ get_orders_by_customer (applyCreateOrder s fails db od)
            od.customer_id = get_orders_by_customer db od.customer_id)
    ∧ (0 < od.amount → od.amount ≤ 1000000 →
        ∃ r, routes_create_order s false db od = .ok r) := by
  refine ⟨?_, ?_, ?_⟩
  · by_cases hv : od.amount ≤ 0 ∨ 1000000 < od.amount
    · simp [routes_create_order, hv]
    · simp [routes_create_order, hv]
  · intro hv fails
    have : applyCreateOrder s fails db od = db := by
      simp [applyCreateOrder, routes_create_order, hv]
    exact ⟨this, by rw [this]⟩
  · intro h1 h2
    have hv : ¬(od.amount ≤ 0 ∨ 1000000 < od.amount) := by
      push_neg
      exact ⟨h1, h2⟩
    simp [routes_create_order, hv]

/-- C6 witness: amount 0 is rejected as invalid, amount 2000000 is rejected
and commits nothing, and amount exactly 1000000 is accepted. -/
theorem order_amount_validation_witness :
    routes_create_order strictSettings false emptyOrderStore
        { customer_id := "C1", amount := 0, currency := "INR",
          idempotency_key := none } = .error .invalidAmount
    ∧ applyCreateOrder strictSettings false emptyOrderStore
        { customer_id := "C1", amount := 2000000, currency := "INR",
          idempotency_key := none } = emptyOrderStore
    ∧ ∃ r, routes_create_order strictSettings false emptyOrderStore
        { customer_id := "C1", amount := 1000000, currency := "INR",
          idempotency_key := none } = .ok r :=
  ⟨(order_amount_validation strictSettings emptyOrderStore _).1.mpr
     (Or.inl le_rfl),
   ((order_amount_validation strictSettings emptyOrderStore _).2.1
     (Or.inr (by norm_num)) false).1,
   (order_amount_validation strictSettings emptyOrderStore _).2.2
     (by norm_num) (by norm_num)⟩

/-- C7: when order creation fails unexpectedly after a passing validation,
the endpoint with graceful degradation on answers with a pending-status
response carrying a freshly generated id, commits nothing (the id has no
stored row and the order listing is unchanged); with graceful degradation
off the same failure surfaces as a server error, again committing
nothing. -/
theorem graceful_degradation_pending (s : AppSettings) (db : OrderStore)
    (od : OrderCreate) (hv : 0 < od.amount ∧ od.amount ≤ 1000000)
    (hids : ∀ o ∈ db.orders, o.id < db.nextId) :
    (s.enable_graceful_degradation = true →
      routes_create_order s true db od =
        .ok ({ order_id := db.nextId, status := .pending },
             { orders := db.orders, nextId := db.nextId + 1 })
      ∧ (∀ o ∈ db.orders, o.id ≠ db.nextId)
      ∧ ∀ cid, get_orders_by_customer
          { orders := db.orders, nextId := db.nextId + 1 } cid =
          get_orders_by_customer db cid)
    ∧ (s.enable_graceful_degradation = false →
      routes_create_order s true db od = .error .serverError
      ∧ applyCreateOrder s true db od = db) := by
  have hv' : ¬(od.amount ≤ 0 ∨ 1000000 < od.amount) := by
    push_neg
    exact ⟨hv.1, hv.2⟩
  constructor
  · intro hg
    refine ⟨by simp [routes_create_order, hv', hg], ?_, ?_⟩
    · intro o ho
      exact Nat.ne_of_lt (hids o ho)
    · intro cid
      simp [get_orders_by_customer]
  · intro hg
    have : routes_create_order s true db od = .error .serverError := by
      simp [routes_create_order, hv', hg]
    exact ⟨this, by simp [applyCreateOrder, this]⟩

/-- C7 witness: with degradation on, a failing creation of a valid payload
on the empty store returns a pending response with fresh id 0 and an
unchanged (empty) orders list; with degradation off the same failure is a
server error. -/
theorem graceful_degradation_pending_witness :
    routes_create_order degradedSettings true emptyOrderStore
        demoOrderCreate =
      .ok ({ order_id := emptyOrderStore.nextId, status := .pending },
           { orders := emptyOrderStore.orders,
             nextId := emptyOrderStore.nextId + 1 })
    ∧ routes_create_order strictSettings true emptyOrderStore
        demoOrderCreate = .error .serverError :=
  ⟨((graceful_degradation_pending degradedSettings emptyOrderStore
      demoOrderCreate ⟨by norm_num [demoOrderCreate], by
        norm_num [demoOrderCreate]⟩
      (fun o ho => by simp [emptyOrderStore] at ho)).1 rfl).1,
   ((graceful_degradation_pending strictSettings emptyOrderStore
      demoOrderCreate ⟨by norm_num [demoOrderCreate], by
        norm_num [demoOrderCreate]⟩
      (fun o ho => by simp [emptyOrderStore] at ho)).2 rfl).1⟩

-- ### Key-count preservation across create calls

theorem countKey_create_other (s : AppSettings) (db : OrderStore)
    (od : OrderCreate) (k : String) (hkey : od.idempotency_key ≠ some k) :
    countKey (create_order_immediate s db od).2 k = countKey db k := by
  unfold create_order_immediate
  cases hf : (if s.enable_strict_idempotency_check
      && keyTruthy od.idempotency_key then
        db.orders.find? (fun o => o.idempotency_key == od.idempotency_key)
      else none) with
  | some o => simp [countKey]
  | none =>
    have hrow : (od.idempotency_key == some k) = false := by
      simpa using hkey
    simp [countKey, List.filter_append, hrow]

theorem countKey_create_le_one (s : AppSettings) (db : OrderStore)
    (od : OrderCreate) (k : String)
    (hs : s.enable_strict_idempotency_check = true) (hk0 : k ≠ "")
    (h : countKey db k ≤ 1) :
    countKey (create_order_immediate s db od).2 k ≤ 1 := by
  by_cases hkey : od.idempotency_key = some k
  · have ht : keyTruthy od.idempotency_key = true := by
      rw [hkey]
      exact keyTruthy_some hk0
    cases hf : db.orders.find?
        (fun o => o.idempotency_key == od.idempotency_key) with
    | some o =>
      rw [create_order_immediate_hit s db od o hs ht hf]
      exact h
    | none =>
      have hfresh : ∀ x ∈ db.orders, x.idempotency_key ≠ some k := by
        intro x hx heq
        exact List.find?_eq_none.mp hf x hx (by simp [hkey, heq])
      rw [countKey_create_fresh s db od k hkey hfresh]
  · rw [countKey_create_other s db od k hkey]
    exact h

theorem countKey_applyCreateOrder_le_one (s : AppSettings) (fails : Bool)
    (db : OrderStore) (od : OrderCreate) (k : String)
    (hs : s.enable_strict_idempotency_check = true) (hk0 : k ≠ "")
    (h : countKey db k ≤ 1) :
    countKey (applyCreateOrder s fails db od) k ≤ 1 := by
  unfold applyCreateOrder routes_create_order
  by_cases hv : od.amount ≤ 0 ∨ 1000000 < od.amount
  · simpa [hv] using h
  · simp only [hv, if_false]
    cases fails with
    | true =>
      cases hg : s.enable_graceful_degradation with
      | true => simpa [countKey] using h
      | false => simpa using h
    | false =>
      simpa using countKey_create_le_one s db od k hs hk0 h

/-- Serialized execution of a sequence of create-order calls, each tagged
with its unexpected-failure flag. -/
def runCreateOrders (s : AppSettings) (db : OrderStore)
    (reqs : List (Bool × OrderCreate)) : OrderStore :=
  reqs.foldl (fun d r => applyCreateOrder s r.1 d r.2) db

theorem countKey_runCreateOrders_le_one (s : AppSettings) (k : String)
    (db : OrderStore) (reqs : List (Bool × OrderCreate))
    (hs : s.enable_strict_idempotency_check = true) (hk0 : k ≠ "")
    (h : countKey db k ≤ 1) :
    countKey (runCreateOrders s db reqs) k ≤ 1 := by
  induction reqs generalizing db with
  | nil => exact h
  | cons r rest ih =>
    exact ih (applyCreateOrder s r.1 db r.2)
      (countKey_applyCreateOrder_le_one s r.1 db r.2 k hs hk0 h)

-- ### The unprotected lookup-then-insert of the order path

/-- The lookup phase of services.create_order_immediate: the dedup query,
whose hit decision is a snapshot of the store visible at query time. The
query carries no row lock and the key column has no conflict handling in
the insert that follows, so another request may commit between this
snapshot and the insert. -/
def create_lookup (s : AppSettings) (db : OrderStore) (od : OrderCreate) :
    Option OrderRow :=
  if s.enable_strict_idempotency_check && keyTruthy od.idempotency_key then
    db.orders.find? (fun o => o.idempotency_key == od.idempotency_key)
  else none

/-- The completion phase of services.create_order_immediate: return the hit
of the earlier lookup unchanged, or insert and commit a fresh row into the
store current at commit time. -/
def create_finish (db : OrderStore) (od : OrderCreate)
    (hit : Option OrderRow) : OrderRow × OrderStore :=
  match hit with
  | some existing => (existing, db)
  | none =>
    (freshRow db od,
     { orders := db.orders ++ [freshRow db od], nextId := db.nextId + 1 })

/-- The two phases compose to exactly the traced function; splitting them
only exposes the interleaving point between the dedup query and the
insert. -/
theorem create_order_immediate_phases (s : AppSettings) (db : OrderStore)
    (od : OrderCreate) :
    create_order_immediate s db od =
      create_finish db od (create_lookup s db od) := rfl

/-- C5 (code bug in the order half): the lookup-then-insert of
create_order_immediate is not race-free. In the overlapped execution in
which two submissions with the enabled key k1 both run their dedup lookup
against the empty store before either insert commits, both lookups miss
and both inserts commit, leaving two stored order rows with key k1 and
returning two distinct order ids — the very outcome the claim asserts can
never happen for concurrent same-key submissions. -/
theorem create_order_race :
    create_lookup strictSettings emptyOrderStore demoOrderCreate = none
    ∧ countKey (create_finish
        (create_finish emptyOrderStore demoOrderCreate
          (create_lookup strictSettings emptyOrderStore
            demoOrderCreate)).2
        demoOrderCreate
        (create_lookup strictSettings emptyOrderStore demoOrderCreate)).2
      "k1" = 2
    ∧ (create_finish
        (create_finish emptyOrderStore demoOrderCreate
          (create_lookup strictSettings emptyOrderStore
            demoOrderCreate)).2
        demoOrderCreate
        (create_lookup strictSettings emptyOrderStore demoOrderCreate)).1.id
      ≠ (create_finish emptyOrderStore demoOrderCreate
          (create_lookup strictSettings emptyOrderStore
            demoOrderCreate)).1.id := by
  refine ⟨rfl, ?_, ?_⟩ <;> decide

-- ### Settlement scheduler

/-- services.handle_settlement_window: sleeps through the configured window
in poll_interval steps, then only logs completion. The status update
appears in the source only as a comment, and the function receives no
database session, so the stored orders are untouched. -/
def handle_settlement_window (db : OrderStore) (_order_id : ℕ)
    (_window_seconds : ℚ) : OrderStore :=
  db

/-- Status of the stored order with the given id, if any. -/
def orderStatus (db : OrderStore) (oid : ℕ) : Option OrderStatus :=
  (db.orders.find? (fun o => o.id == oid)).map (fun o => o.status)

/-- A stored order with status created. -/
def demoCreatedOrder : OrderRow :=
  { id := 0, customer_id := "C1", amount := 100, currency := "INR",
    idempotency_key := none, status := .created }

/-- A store holding one created order. -/
def demoOrderStore : OrderStore := { orders := [demoCreatedOrder], nextId := 1 }

/-- C9 counterexample: running the settlement window for a stored order
with status created leaves its status created, not settled, refuting the
claim that the Settlement Scheduler transitions the order to settled once
the window has run. -/
theorem settlement_window_not_settled :
    orderStatus (handle_settlement_window demoOrderStore 0 10) 0 =
      some .created
    ∧ orderStatus (handle_settlement_window demoOrderStore 0 10) 0 ≠
      some .settled := by
  constructor
  · rfl
  · intro h
    simp [orderStatus, handle_settlement_window, demoOrderStore,
      demoCreatedOrder, List.find?] at h

/-- The operations that touch the orders table: create calls and settlement
window runs. -/
inductive SysOp where
  | createOrder (fails : Bool) (od : OrderCreate)
  | settle (order_id : ℕ) (window_seconds : ℚ)

/-- Effect of one system operation on the orders table. -/
def applySysOp (s : AppSettings) (db : OrderStore) : SysOp → OrderStore
  | .createOrder fails od => applyCreateOrder s fails db od
  | .settle oid w => handle_settlement_window db oid w

/-- Serialized execution of a sequence of system operations. -/
def runSysOps (s : AppSettings) (db : OrderStore) (ops : List SysOp) :
    OrderStore :=
  ops.foldl (applySysOp s) db

theorem mem_orders_create (s : AppSettings) (db : OrderStore)
    (od : OrderCreate) (o : OrderRow) (h : o ∈ db.orders) :
    o ∈ (create_order_immediate s db od).2.orders := by
  unfold create_order_immediate
  cases hf : (if s.enable_strict_idempotency_check
      && keyTruthy od.idempotency_key then
        db.orders.find? (fun x => x.idempotency_key == od.idempotency_key)
      else none) with
  | some ex => simpa using h
  | none =>
    simp only [List.mem_append]
    exact Or.inl h

theorem mem_orders_applyCreateOrder (s : AppSettings) (fails : Bool)
    (db : OrderStore) (od : OrderCreate) (o : OrderRow)
    (h : o ∈ db.orders) :
    o ∈ (applyCreateOrder s fails db od).orders := by
  unfold applyCreateOrder routes_create_order
  by_cases hv : od.amount ≤ 0 ∨ 1000000 < od.amount
  · simpa [hv] using h
  · simp only [hv, if_false]
    cases fails with
    | true =>
      cases hg : s.enable_graceful_degradation with
      | true => simpa using h
      | false => simpa using h
    | false => simpa using mem_orders_create s db od o h

/-- C9 amended: no operation of the system ever mutates or removes a stored
order row; in particular an order created with status created keeps that
exact row, status included, across every later create call and settlement
window run (the scheduler performs no transition at all). -/
theorem orders_never_mutated (s : AppSettings) (db : OrderStore)
    (ops : List SysOp) (o : OrderRow) (h : o ∈ db.orders) :
    o ∈ (runSysOps s db ops).orders := by
  induction ops generalizing db with
  | nil => exact h
  | cons op rest ih =>
    refine ih (applySysOp s db op) ?_
    cases op with
    | settle oid w => exact h
    | createOrder fails od => exact mem_orders_applyCreateOrder s fails db od o h

/-- C9 amended witness: the stored created order survives, unchanged, a
settlement window run followed by a further create call. -/
theorem orders_never_mutated_witness :
    demoCreatedOrder ∈ (runSysOps strictSettings demoOrderStore
      [.settle 0 10, .createOrder false demoOrderCreate]).orders :=
  orders_never_mutated strictSettings demoOrderStore _ demoCreatedOrder
    (by simp [demoOrderStore])

-- ### Numeric representation of balances

/-- The set of values representable by Python floats (IEEE-754 binary64):
every finite binary64 value is an integer multiple of a power of two, so it
lies among the dyadic rationals m / 2 ^ e. services.credit_wallet and
services.debit_wallet convert the stored balance and the request amount to
float and compute the new balance on floats, so every balance the code ever
stores lies in this set. -/
def isPyFloat (q : ℚ) : Prop := ∃ (m : ℤ) (e : ℕ), q = m / 2 ^ e

/-- The value stored by the balance update of services.credit_wallet,
new_balance = old_balance + amount, on Python-float operands. The exact sum
is shown; the binary64 rounding the hardware applies afterwards maps dyadic
values to dyadic values, so every stored balance stays dyadic either
way. -/
def creditFloatStored (old_balance amount : ℚ) : ℚ := old_balance + amount

/-- C8 (refutation of exact decimal arithmetic): the float balance
arithmetic of credit_wallet is closed over the dyadic values, and no dyadic
value equals the exact decimal one tenth; hence crediting the float that
Python parses from the request amount 0.1 can never leave the exact decimal
sum 1/10 as balance, unlike what decimal fixed-point arithmetic would
give. -/
theorem float_balance_not_exact_decimal :
    (∀ old_balance amount : ℚ, isPyFloat old_balance → isPyFloat amount →
      isPyFloat (creditFloatStored old_balance amount))
    ∧ ∀ b : ℚ, isPyFloat b → b ≠ 1 / 10 := by
  constructor
  · rintro x y ⟨mx, ex, hx⟩ ⟨my, ey, hy⟩
    refine ⟨mx * 2 ^ ey + my * 2 ^ ex, ex + ey, ?_⟩
    subst hx hy
    unfold creditFloatStored
    have h2x : ((2 : ℚ) ^ ex) ≠ 0 := by positivity
    have h2y : ((2 : ℚ) ^ ey) ≠ 0 := by positivity
    push_cast
    rw [pow_add, div_add_div _ _ h2x h2y]
    ring
  · rintro b ⟨m, e, hb⟩ h10
    rw [hb] at h10
    have h2e : ((2 : ℚ) ^ e) ≠ 0 := by positivity
    rw [div_eq_div_iff h2e (by norm_num)] at h10
    have h10' : (m : ℚ) * 10 = ((2 : ℤ) ^ e : ℤ) := by push_cast; linarith
    have h2' : (m * 10 : ℤ) = 2 ^ e := by exact_mod_cast h10'
    have h5 : (5 : ℤ) ∣ 2 ^ e := ⟨m * 2, by linarith⟩
    have hp : Prime (5 : ℤ) := by norm_num
    have h52 := hp.dvd_of_dvd_pow h5
    norm_num at h52

/-- The binary64 value Python stores for the request amount 0.1:
3602879701896397 / 2 ^ 55, about 0.10000000000000000555. -/
def pyFloatTenth : ℚ := 3602879701896397 / 2 ^ 55

/-- C8 witness: crediting the float representation of 0.1 to a zero balance
stores a dyadic value, and that stored balance is not the exact decimal
0.1. -/
theorem float_balance_not_exact_decimal_witness :
    isPyFloat (creditFloatStored 0 pyFloatTenth)
    ∧ creditFloatStored 0 pyFloatTenth ≠ 1 / 10 := by
  have h0 : isPyFloat 0 := ⟨0, 0, by norm_num⟩
  have ht : isPyFloat pyFloatTenth :=
    ⟨3602879701896397, 55, by norm_num [pyFloatTenth]⟩
  have hcl := float_balance_not_exact_decimal.1 0 pyFloatTenth h0 ht
  exact ⟨hcl, float_balance_not_exact_decimal.2 _ hcl⟩

end Payment
